import Mathlib

/-!
Verification of the todo-list manager (src/todo.py) against its
natural-language specification.

The program keeps two module-level lists, `tasks` (pending) and
`completed_tasks`, loads them from two text files, and dispatches one
command per process run.  Every relevant piece of the Python source is
embedded below as an executable Lean definition; theorems about those
definitions settle the specification's claims.

Modelling conventions:
  * a Python task dict becomes the structure `Task`; values are the strings
    produced by the load regex (the code's `x if x else ""` collapses a
    Python `None` and the empty string to `""`, so the string `""` models
    an absent field);
  * file contents are lists of lines; the file system is a function from
    file name to its lines;
  * the curly-brace characters of the record format are written
    `Char.ofNat 123` / `Char.ofNat 125`.
-/

namespace Todo

/-- One task record, as built by `load_tasks` (todo.py line 40):
`line_number` is `some n` for a task read from the pending file at line `n`
and `none` for a completed task or a freshly added one. -/
structure Task where
  lineNumber : Option Nat
  task : String
  date : String
  taskClass : String
deriving DecidableEq

/-- The module-level state: `tasks` and `completed_tasks` (todo.py lines 13-14). -/
structure Store where
  pending : List Task
  completed : List Task
deriving DecidableEq

/-- The character `{`. -/
def lbrace : Char := Char.ofNat 123

/-- The character `}`. -/
def rbrace : Char := Char.ofNat 125

/-!
## Record codec

`load_tasks` matches each stripped line against the regular expression
`- (.*?) \{(.*?)\}\[(.*?)\]` with `re.match` (anchored at the start, prefix
match, `.` does not match a newline, the three groups are lazy).
`matchG3`, `matchG2`, `matchG1` implement the lazy groups with exact
backtracking semantics: a group is extended one character at a time, and a
candidate stop is taken only if the rest of the pattern matches there.
-/

/-- Lazy group 3 of the record regex: `(.*?)\]` — the shortest run of
non-newline characters followed by `]` (nothing follows, so no backtracking). -/
def matchG3 : List Char → Option (List Char)
  | [] => none
  | c :: cs =>
    if c = ']' then some []
    else if c = '\n' then none
    else (matchG3 cs).map (fun g => c :: g)

/-- The probe group 2 runs at each candidate stop: the literal `}[`
followed by a successful group 3.  `none` means the engine backtracks and
extends group 2 by one character. -/
def probe2 (c : Char) (cs : List Char) : Option (List Char × List Char) :=
  if c = rbrace then
    match cs with
    | d :: rest => if d = '[' then (matchG3 rest).map (fun g3 => (([] : List Char), g3)) else none
    | [] => none
  else none

/-- Lazy group 2 of the record regex: `(.*?)\}\[` followed by group 3.  The
shortest prefix is taken whose following `}[` lets group 3 succeed. -/
def matchG2 : List Char → Option (List Char × List Char)
  | [] => none
  | c :: cs =>
    match probe2 c cs with
    | some p => some p
    | none =>
      if c = '\n' then none
      else (matchG2 cs).map (fun p => (c :: p.1, p.2))

/-- The probe group 1 runs at each candidate stop: the literal ` {`
followed by successful groups 2 and 3. -/
def probe1 (c : Char) (cs : List Char) : Option (List Char × List Char × List Char) :=
  if c = ' ' then
    match cs with
    | d :: rest => if d = lbrace then (matchG2 rest).map (fun p => (([] : List Char), p.1, p.2)) else none
    | [] => none
  else none

/-- Lazy group 1 of the record regex: `(.*?) \{` followed by groups 2 and 3. -/
def matchG1 : List Char → Option (List Char × List Char × List Char)
  | [] => none
  | c :: cs =>
    match probe1 c cs with
    | some q => some q
    | none =>
      if c = '\n' then none
      else (matchG1 cs).map (fun q => (c :: q.1, q.2.1, q.2.2))

/-- The whole record regex `- (.*?) \{(.*?)\}\[(.*?)\]` applied with
`re.match` semantics to a list of characters. -/
def matchRecord : List Char → Option (String × String × String)
  | '-' :: ' ' :: rest =>
      (matchG1 rest).map (fun q => (String.mk q.1, String.mk q.2.1, String.mk q.2.2))
  | _ => none

/-- Python's `str.strip()`: drop whitespace from both ends. -/
def pyStrip (l : List Char) : List Char :=
  ((l.dropWhile Char.isWhitespace).reverse.dropWhile Char.isWhitespace).reverse

/-- `re.match(r'- (.*?) \{(.*?)\}\[(.*?)\]', line.strip())` returning the
three groups (todo.py lines 37-39 and 47-49). -/
def parseLine (s : String) : Option (String × String × String) :=
  matchRecord (pyStrip s.data)

/-- The characters of one serialized record,
`- <task> {<date>}[<class>]` (todo.py line 60 and 69, without the
trailing newline, which is the line separator). -/
def recordChars (desc date cls : List Char) : List Char :=
  '-' :: ' ' :: (desc ++ ' ' :: lbrace :: (date ++ rbrace :: '[' :: (cls ++ [']'])))

/-- The line `save_tasks`/`save_completed_tasks` writes for a task
(todo.py lines 58-60, 67-69); the falsy test `x if x else ""` is the
identity on the string fields of `Task`. -/
def formatLine (t : Task) : String :=
  String.mk (recordChars t.task.data t.date.data t.taskClass.data)

/-!
## Task store: loading and saving
-/

/-- Default file names of the program, exactly as the source spells them. -/
def loadTodoDefault : String := "file"

/-- Default `done_filename` of `load_tasks` (todo.py line 27). -/
def loadDoneDefault : String := "file"

/-- Default `filename` of `save_tasks` (todo.py line 54). -/
def saveTasksDefault : String := "todo.txt"

/-- Default `filename` of `save_completed_tasks` (todo.py line 63). -/
def saveCompletedDefault : String := "done.txt"

/-- The pending-file reader of `load_tasks` (todo.py lines 34-42):
`enumerate(file, start=1)` numbers every line, well formed or not, and a
line that matches the record regex yields a task carrying that number. -/
def loadPendingGo (n : Nat) : List String → List Task
  | [] => []
  | l :: ls =>
    match parseLine l with
    | some g => { lineNumber := some n, task := g.1, date := g.2.1, taskClass := g.2.2 } :: loadPendingGo (n + 1) ls
    | none => loadPendingGo (n + 1) ls

/-- Pending tasks parsed from the lines of the todo file. -/
def loadPendingLines (lines : List String) : List Task :=
  loadPendingGo 1 lines

/-- Completed tasks parsed from the lines of the done file
(todo.py lines 44-52): no line number is recorded. -/
def loadCompletedLines (lines : List String) : List Task :=
  lines.filterMap (fun l => (parseLine l).map
    (fun g => { lineNumber := none, task := g.1, date := g.2.1, taskClass := g.2.2 }))

/-- `load_tasks(todo_filename, done_filename)` over a file system `fs`
mapping a file name to its lines. -/
def loadTasks (fs : String → List String) (todoName doneName : String) : Store :=
  { pending := loadPendingLines (fs todoName),
    completed := loadCompletedLines (fs doneName) }

/-- The call `load_tasks()` made by `main` (todo.py lines 98 and 176):
both arguments default, so BOTH sequences are read from the same file
named by `loadTodoDefault` and `loadDoneDefault`. -/
def mainLoad (fs : String → List String) : Store :=
  loadTasks fs loadTodoDefault loadDoneDefault

/-!
## complete / undo
-/

/-- Everything `move_task_to_done` does (todo.py lines 72-82), in order:
remove every list element equal to `task` from `tasks`; write the pending
file (argument `todo_filename = ""`) from the new `tasks`; write the done
file (argument `done_filename = ""`) from `completed_tasks` — which does
NOT yet contain `task`; only then append `task` to `completed_tasks`. -/
structure MoveResult where
  store : Store
  todoFileName : String
  doneFileName : String
  todoFileLines : List String
  doneFileLines : List String

/-- `move_task_to_done(task)` (todo.py lines 72-82). -/
def moveTaskToDone (st : Store) (t : Task) : MoveResult :=
  { store := { pending := st.pending.filter (fun x => decide (x ≠ t)),
               completed := st.completed ++ [t] },
    todoFileName := "",
    doneFileName := "",
    todoFileLines := (st.pending.filter (fun x => decide (x ≠ t))).map formatLine,
    doneFileLines := st.completed.map formatLine }

/-- The in-memory effect of `undo_last_done` (todo.py lines 84-92): pop the
last completed task (if any) and append it to pending. -/
def undoLastDone (st : Store) : Store :=
  match st.completed.getLast? with
  | some t => { pending := st.pending ++ [t], completed := st.completed.dropLast }
  | none => st

/-!
## Date validation and the update sort
-/

/-- The last one-or-two characters of the date shape: `\d{1,2}$`. -/
def tailMD : List Char → Bool
  | [c] => c.isDigit
  | [c1, c2] => c1.isDigit && c2.isDigit
  | _ => false

/-- `validate_date` (todo.py lines 16-19): the anchored regular expression
`^\d{1,2}/\d{1,2}$`.  `true` means argparse accepts the `--date` value;
`false` means it raises `ArgumentTypeError` and the parser exits with a
usage error. -/
def isValidDateShape (s : String) : Bool :=
  match s.data with
  | c1 :: '/' :: rest => c1.isDigit && tailMD rest
  | c1 :: c2 :: '/' :: rest => c1.isDigit && c2.isDigit && tailMD rest
  | _ => false

/-- Decimal value of a run of digit characters, `none` if any is not a digit. -/
def digitsVal (l : List Char) : Option Nat :=
  if l.all Char.isDigit then some (l.foldl (fun n c => n * 10 + (c.toNat - 48)) 0) else none

/-- Day count of each month in the year 1900 (`datetime.strptime` fills in
year 1900, which is not a leap year). -/
def monthDays : Nat → Nat
  | 1 => 31 | 2 => 28 | 3 => 31 | 4 => 30 | 5 => 31 | 6 => 30
  | 7 => 31 | 8 => 31 | 9 => 30 | 10 => 31 | 11 => 30 | 12 => 31
  | _ => 0

/-- Range check performed by `datetime.strptime(s, "%m/%d")`: the month must
be 1..12 and the day a real day of that month in 1900, else ValueError. -/
def mkMD (ms ds : List Char) : Option (Nat × Nat) :=
  (digitsVal ms).bind fun m => (digitsVal ds).bind fun d =>
    if 1 ≤ m && m ≤ 12 && 1 ≤ d && d ≤ monthDays m then some (m, d) else none

/-- `parse_date` (todo.py lines 94-95): `datetime.strptime(date_str, "%m/%d")`.
`%m` and `%d` each consume one or two digits, the `/` is literal, the whole
string must be consumed, and the values must form a real 1900 calendar date;
`none` models the ValueError the call raises otherwise. -/
def parseDateStrict (s : String) : Option (Nat × Nat) :=
  match s.data with
  | [a, '/', b] => mkMD [a] [b]
  | [a, '/', b1, b2] => mkMD [a] [b1, b2]
  | [a1, a2, '/', b] => mkMD [a1, a2] [b]
  | [a1, a2, '/', b1, b2] => mkMD [a1, a2] [b1, b2]
  | _ => none

/-- A key strictly larger than `m * 100 + d` for every calendar date: it
models `datetime.max`, the sort key of a task with a falsy date. -/
def maxDateKey : Nat := 10000

/-- The sort key of `tasks.sort(key=lambda x: parse_date(x["date"]) if
x["date"] else datetime.max)` (todo.py line 177).  Two `datetime(1900, m, d)`
values compare lexicographically on `(m, d)`, which `m * 100 + d` encodes
since a day is below 100; `none` models the ValueError `parse_date` raises. -/
def keyOf (t : Task) : Option Nat :=
  if t.date = "" then some maxDateKey
  else (parseDateStrict t.date).map (fun p => p.1 * 100 + p.2)

/-- The sort key with a default that is only ever read behind `allKeysOk`. -/
def keyValD (t : Task) : Nat :=
  (keyOf t).getD 0

/-- The comparison `list.sort` applies to the keys. -/
def keyLe (a b : Task) : Prop :=
  keyValD a ≤ keyValD b

instance : DecidableRel keyLe := fun a b => Nat.decLe (keyValD a) (keyValD b)

instance : IsTotal Task keyLe := ⟨fun a b => Nat.le_total (keyValD a) (keyValD b)⟩

instance : IsTrans Task keyLe := ⟨fun _ _ _ hab hbc => Nat.le_trans hab hbc⟩

/-- `parse_date` succeeds on every date of the list (so `list.sort` finishes
without raising). -/
def allKeysOk (l : List Task) : Bool :=
  l.all (fun t => (keyOf t).isSome)

/-- The `update` handler's sort (todo.py line 177): Python's `list.sort` is a
stable ascending sort by key, realized here by `List.insertionSort`; the
whole call raises ValueError (`Except.error`) as soon as some key is not a
parseable calendar date. -/
def updateRun (l : List Task) : Except Unit (List Task) :=
  if allKeysOk l then Except.ok (List.insertionSort keyLe l) else Except.error ()

/-!
## The ls command's --now filter
-/

/-- `datetime.now().strftime("%-m/%d")` (todo.py line 156) for a local date
with month `m` and day `d`: the month is NOT zero padded, the day ALWAYS is
(two digits). -/
def nowString (m d : Nat) : String :=
  toString m ++ "/" ++ (if d < 10 then "0" ++ toString d else toString d)

/-- The `--now` filter (todo.py line 157): literal string equality of the
stored date against today's rendering. -/
def lsNowFilter (m d : Nat) (ts : List Task) : List Task :=
  ts.filter (fun t => decide (t.date = nowString m d))

/-!
## The order of events in main, and the files each command touches
-/

/-- An observable file-system or control event of one `main` run. -/
inductive Ev where
  | chmod (f : String)
  | readF (f : String)
  | writeF (f : String)
  | usageError
  | dispatch (c : String)
deriving DecidableEq

/-- The events of `load_tasks()` (todo.py lines 27-52): `ensure_permissions`
chmods both files, then both are opened and read. -/
def loadEvents : List Ev :=
  [Ev.chmod loadTodoDefault, Ev.chmod loadDoneDefault,
   Ev.readF loadTodoDefault, Ev.readF loadDoneDefault]

/-- The event order of `main` (todo.py lines 97-122) up to dispatch:
`load_tasks()` runs FIRST (line 98), and only then does
`parser.parse_args()` run `validate_date` on a `--date` value (line 122);
an invalid value makes argparse print a usage error and exit. -/
def mainEvents (dateArg : Option String) (cmd : String) : List Ev :=
  loadEvents ++
    (match dateArg with
     | some d => if isValidDateShape d then [Ev.dispatch cmd] else [Ev.usageError]
     | none => [Ev.dispatch cmd])

/-- Process exit code: argparse exits with 2 on an invalid `--date`; every
recognized command path returns normally (exit 0). -/
def mainExitCode (dateArg : Option String) : Nat :=
  match dateArg with
  | some d => if isValidDateShape d then 0 else 2
  | none => 0

/-- The five commands of the CLI. -/
inductive Cmd where
  | add
  | doneCmd
  | undo
  | ls
  | update
deriving DecidableEq

/-- The file names each command hands to the save functions:
`add` calls `save_tasks()` (default, line 127); `done` reaches
`move_task_to_done`, which passes the empty string to both saves
(lines 76-80); `undo` reaches `undo_last_done`, which calls both saves with
their defaults (lines 88-89); `ls` saves nothing; `update` calls
`save_tasks()` (line 178). -/
def commandWriteFiles : Cmd → List String
  | Cmd.add => [saveTasksDefault]
  | Cmd.doneCmd => ["", ""]
  | Cmd.undo => [saveTasksDefault, saveCompletedDefault]
  | Cmd.ls => []
  | Cmd.update => [saveTasksDefault]

/-- The files `main` loads the store from, for every command (line 98). -/
def commandReadFiles : List String :=
  [loadTodoDefault, loadDoneDefault]

/-!
## Claim theorems: concrete evaluations of the code's behavior
-/

/-- C1: the code violates the claim.  `move_task_to_done` writes the done
file BEFORE appending the completed task (todo.py line 82 runs after lines
79-80), and writes it under the file name `""`: completing the only pending
task leaves a persisted done file that is empty — it does not contain the
task as its last record. -/
theorem c1_done_file_written_before_append :
    (moveTaskToDone { pending := [⟨some 1, "a", "", ""⟩], completed := [] }
        ⟨some 1, "a", "", ""⟩).store.completed = [⟨some 1, "a", "", ""⟩] ∧
    (moveTaskToDone { pending := [⟨some 1, "a", "", ""⟩], completed := [] }
        ⟨some 1, "a", "", ""⟩).store.pending = [] ∧
    (moveTaskToDone { pending := [⟨some 1, "a", "", ""⟩], completed := [] }
        ⟨some 1, "a", "", ""⟩).doneFileLines = [] ∧
    (moveTaskToDone { pending := [⟨some 1, "a", "", ""⟩], completed := [] }
        ⟨some 1, "a", "", ""⟩).doneFileName = "" ∧
    formatLine ⟨some 1, "a", "", ""⟩ ∉
      (moveTaskToDone { pending := [⟨some 1, "a", "", ""⟩], completed := [] }
        ⟨some 1, "a", "", ""⟩).doneFileLines :=
  ⟨rfl, rfl, rfl, rfl, by decide⟩

/-- C2: the code violates the claim.  `main` loads both sequences from the
default file `"file"`, but `add`/`update` save pending to `"todo.txt"`,
`undo` saves to `"todo.txt"`/`"done.txt"`, and `done` saves both sequences
to the file named `""` — never the files that were loaded. -/
theorem c2_saved_files_differ_from_loaded :
    commandReadFiles = ["file", "file"] ∧
    commandWriteFiles Cmd.add = ["todo.txt"] ∧
    commandWriteFiles Cmd.doneCmd = ["", ""] ∧
    commandWriteFiles Cmd.undo = ["todo.txt", "done.txt"] ∧
    commandWriteFiles Cmd.update = ["todo.txt"] ∧
    "todo.txt" ∉ commandReadFiles ∧
    "done.txt" ∉ commandReadFiles ∧
    "" ∉ commandReadFiles := by
  decide

/-- C3: the code violates the claim.  `load_tasks()` defaults BOTH file
names to `"file"`, so immediately after load every well-formed record of
that one file is a member of both `pending` and `completed`: no task
belongs to exactly one sequence. -/
theorem c3_load_duplicates_task_into_both :
    (mainLoad fun n => if n = "file" then ["- a \x7b\x7d[]"] else []).pending
      = [⟨some 1, "a", "", ""⟩] ∧
    (mainLoad fun n => if n = "file" then ["- a \x7b\x7d[]"] else []).completed
      = [⟨none, "a", "", ""⟩] ∧
    (∃ p ∈ (mainLoad fun n => if n = "file" then ["- a \x7b\x7d[]"] else []).pending,
     ∃ c ∈ (mainLoad fun n => if n = "file" then ["- a \x7b\x7d[]"] else []).completed,
       p.task = c.task ∧ p.date = c.date ∧ p.taskClass = c.taskClass) := by
  refine ⟨rfl, rfl, ⟨some 1, "a", "", ""⟩, ?_, ⟨none, "a", "", ""⟩, ?_, rfl, rfl, rfl⟩ <;> decide

/-- C10: the code violates the claim.  `validate_date` accepts the shapes
`2/30` and `13/5`, but `update`'s sort key calls
`datetime.strptime(_, "%m/%d")`, which rejects them as calendar dates and
raises ValueError, so `update` crashes instead of completing. -/
theorem c10_update_raises_on_shape_valid_date :
    isValidDateShape "2/30" = true ∧
    isValidDateShape "13/5" = true ∧
    parseDateStrict "2/30" = none ∧
    parseDateStrict "13/5" = none ∧
    updateRun [⟨some 1, "hw", "2/30", ""⟩] = Except.error () ∧
    updateRun [⟨some 1, "hw", "13/5", ""⟩] = Except.error () :=
  ⟨rfl, rfl, rfl, rfl, rfl, rfl⟩

/-- C4 counterexample: with the invalid date value `13-5`, main's event
trace chmods and reads both task files and only afterwards raises the
usage error — file access does occur before the rejection, refuting the
claim at this input. -/
theorem c4_counterexample_reads_precede_usage_error :
    mainEvents (some "13-5") "ls" = loadEvents ++ [Ev.usageError] ∧
    Ev.readF loadTodoDefault ∈ loadEvents ∧
    Ev.readF loadDoneDefault ∈ loadEvents ∧
    isValidDateShape "13-5" = false := by
  refine ⟨rfl, ?_, ?_, rfl⟩ <;> decide

/-- C5 counterexample: the task with description `a` (no brace or bracket
characters), empty date and class `x]y` does not round-trip: the lazy
third group stops at the first `]`, so the parsed class is `x`. -/
theorem c5_counterexample_class_with_bracket :
    parseLine (formatLine ⟨none, "a", "", "x]y"⟩) = some ("a", "", "x") ∧
    parseLine (formatLine ⟨none, "a", "", "x]y"⟩) ≠
      some (("a" : String), ("" : String), ("x]y" : String)) :=
  ⟨rfl, by decide⟩

/-- C8 counterexample: a pending file whose first line is garbage and whose
second line is well formed yields one task, and its position is 2 (the file
line number), not 1 (its rank among well-formed lines). -/
theorem c8_counterexample_malformed_line_shifts_position :
    loadPendingLines ["garbage", "- a \x7b\x7d[]"] = [⟨some 2, "a", "", ""⟩] ∧
    (loadPendingLines ["garbage", "- a \x7b\x7d[]"]).map Task.lineNumber ≠ [some 1] :=
  ⟨rfl, by decide⟩

/-- C9 counterexample: on May 1 the code's today-string is `5/01` (day is
zero padded by `%d`), so the pending task stored as `5/1` — which denotes
today — is NOT selected by the `--now` filter. -/
theorem c9_counterexample_unpadded_day_excluded :
    nowString 5 1 = "5/01" ∧
    parseDateStrict "5/1" = some (5, 1) ∧
    lsNowFilter 5 1 [⟨some 1, "hw", "5/1", "work"⟩] = [] :=
  ⟨rfl, rfl, rfl⟩

/-!
## Complete/undo inverse (C6)
-/

/-- Helper: removing every copy of an element that occurs exactly once and
appending one copy back is a permutation of the original list. -/
theorem filter_ne_append_perm (P : List Task) (t : Task) (h : P.count t = 1) :
    List.Perm (P.filter (fun x => decide (x ≠ t)) ++ [t]) P := by
  induction P with
  | nil => simp at h
  | cons a P ih =>
    by_cases hat : a = t
    · subst hat
      have h0 : P.count a = 0 := by simpa using h
      have hnot : a ∉ P := List.count_eq_zero.mp h0
      have hcons : (a :: P).filter (fun x => decide (x ≠ a)) = P := by
        simp [List.filter_cons]
        exact fun x hx he => hnot (he ▸ hx)
      rw [hcons]
      exact List.perm_append_singleton a P
    · have hc : P.count t = 1 := by
        simpa [List.count_cons, hat] using h
      have hcons : (a :: P).filter (fun x => decide (x ≠ t))
          = a :: P.filter (fun x => decide (x ≠ t)) := by
        simp [List.filter_cons, hat]
      rw [hcons, List.cons_append]
      exact (ih hc).cons a

/-- C6 (amended): if the completed task occurs exactly once in `pending`
(as every loaded task does, line numbers being distinct), then
`move_task_to_done` followed by `undo_last_done` restores `pending` as a
multiset and restores `completed` exactly.  The original claim's
unrestricted store fails because `move_task_to_done` filters out EVERY
list element equal to the task, not one copy. -/
theorem c6_complete_then_undo_restores (st : Store) (t : Task)
    (h : st.pending.count t = 1) :
    List.Perm (undoLastDone (moveTaskToDone st t).store).pending st.pending ∧
    (undoLastDone (moveTaskToDone st t).store).completed = st.completed := by
  have hlast : (st.completed ++ [t]).getLast? = some t := List.getLast?_concat _
  constructor
  · simp only [undoLastDone, moveTaskToDone, hlast]
    exact filter_ne_append_perm st.pending t h
  · simp only [undoLastDone, moveTaskToDone, hlast, List.dropLast_concat]

/-- Witness for C6 at a concrete store: one pending task `a`, one already
completed task `b`. -/
theorem c6_complete_then_undo_restores_witness :
    (([⟨some 1, "a", "", ""⟩] : List Task).count ⟨some 1, "a", "", ""⟩ = 1) ∧
    (List.Perm
        (undoLastDone (moveTaskToDone
          { pending := [⟨some 1, "a", "", ""⟩], completed := [⟨none, "b", "", ""⟩] }
          ⟨some 1, "a", "", ""⟩).store).pending
        [⟨some 1, "a", "", ""⟩] ∧
      (undoLastDone (moveTaskToDone
          { pending := [⟨some 1, "a", "", ""⟩], completed := [⟨none, "b", "", ""⟩] }
          ⟨some 1, "a", "", ""⟩).store).completed = [⟨none, "b", "", ""⟩]) :=
  ⟨by decide,
   c6_complete_then_undo_restores
     { pending := [⟨some 1, "a", "", ""⟩], completed := [⟨none, "b", "", ""⟩] }
     ⟨some 1, "a", "", ""⟩ (by decide)⟩

/-- C6 counterexample: with two identical pending copies of the task, the
claim as stated fails — `move_task_to_done` removes both copies and undo
restores only one, so the pre-complete pending multiset is not restored. -/
theorem c6_counterexample_duplicate_pending :
    (undoLastDone (moveTaskToDone
        { pending := [⟨some 1, "a", "", ""⟩, ⟨some 1, "a", "", ""⟩], completed := [] }
        ⟨some 1, "a", "", ""⟩).store).pending = [⟨some 1, "a", "", ""⟩] ∧
    ¬ List.Perm
        (undoLastDone (moveTaskToDone
          { pending := [⟨some 1, "a", "", ""⟩, ⟨some 1, "a", "", ""⟩], completed := [] }
          ⟨some 1, "a", "", ""⟩).store).pending
        [⟨some 1, "a", "", ""⟩, ⟨some 1, "a", "", ""⟩] := by
  refine ⟨rfl, ?_⟩
  decide

/-!
## The update sort: sortedness, permutation and stability (C7)
-/

/-- Helper: filtering one key class through an ordered insertion either puts
the inserted element first (its own class) or leaves the class untouched. -/
theorem filter_key_orderedInsert (k : Nat) (a : Task) (l : List Task) :
    (l.orderedInsert keyLe a).filter (fun x => decide (keyValD x = k)) =
      if keyValD a = k then a :: l.filter (fun x => decide (keyValD x = k))
      else l.filter (fun x => decide (keyValD x = k)) := by
  induction l with
  | nil =>
    by_cases hk : keyValD a = k <;> simp [List.orderedInsert, List.filter_cons, hk]
  | cons b l ih =>
    rw [List.orderedInsert]
    by_cases hab : keyLe a b
    · rw [if_pos hab]
      by_cases hk : keyValD a = k <;> simp [List.filter_cons, hk]
    · rw [if_neg hab]
      have hb : keyValD b < keyValD a := Nat.lt_of_not_le hab
      by_cases hk : keyValD a = k
      · have hbk : ¬ keyValD b = k := by
          intro he
          exact absurd (hk ▸ he ▸ hb) (Nat.lt_irrefl _)
        simp [List.filter_cons, hbk, ih, hk]
      · by_cases hbk : keyValD b = k <;> simp [List.filter_cons, hbk, ih, hk]

/-- Helper: the insertion sort by key is stable — for every key value the
subsequence of tasks with that key is unchanged. -/
theorem filter_key_insertionSort (k : Nat) (l : List Task) :
    (List.insertionSort keyLe l).filter (fun x => decide (keyValD x = k)) =
      l.filter (fun x => decide (keyValD x = k)) := by
  induction l with
  | nil => rfl
  | cons a l ih =>
    rw [List.insertionSort, filter_key_orderedInsert]
    by_cases hk : keyValD a = k <;> simp [List.filter_cons, hk, ih]

/-- Helper: every month has at most 31 days. -/
theorem monthDays_le (n : Nat) : monthDays n ≤ 31 := by
  unfold monthDays
  split <;> decide

/-- Helper: a month/day pair accepted by `strptime` is bounded. -/
theorem mkMD_bounds (ms ds : List Char) (m d : Nat) (h : mkMD ms ds = some (m, d)) :
    1 ≤ m ∧ m ≤ 12 ∧ 1 ≤ d ∧ d ≤ 31 := by
  cases hm : digitsVal ms with
  | none => simp [mkMD, hm] at h
  | some m' =>
    cases hd : digitsVal ds with
    | none => simp [mkMD, hm, hd] at h
    | some d' =>
      simp only [mkMD, hm, hd, Option.some_bind] at h
      split at h
      case isTrue hcond =>
        injection h with h'
        injection h' with e1 e2
        subst e1
        subst e2
        simp only [Bool.and_eq_true, decide_eq_true_eq] at hcond
        exact ⟨hcond.1.1.1, hcond.1.1.2, hcond.1.2,
          Nat.le_trans hcond.2 (monthDays_le _)⟩
      case isFalse => exact absurd h (by simp)

/-- Helper: `parse_date` only succeeds on bounded month/day values. -/
theorem parseDateStrict_bounds (s : String) (m d : Nat)
    (h : parseDateStrict s = some (m, d)) : 1 ≤ m ∧ m ≤ 12 ∧ 1 ≤ d ∧ d ≤ 31 := by
  unfold parseDateStrict at h
  split at h <;> first
  | exact mkMD_bounds _ _ _ _ h
  | simp at h

/-- Helper: the sort key of a task with a parseable date is strictly below
the key of a task with an absent date (`datetime.max`). -/
theorem keyValD_lt_of_dated (a b : Task) (ha : a.date ≠ "")
    (hs : (keyOf a).isSome = true) (hb : b.date = "") :
    keyValD a < keyValD b := by
  unfold keyOf at hs
  rw [if_neg ha] at hs
  cases hp : parseDateStrict a.date with
  | none => rw [hp] at hs; simp at hs
  | some p =>
    obtain ⟨m, d⟩ := p
    have hbd := parseDateStrict_bounds a.date m d hp
    have hkb : keyValD b = maxDateKey := by simp [keyValD, keyOf, hb]
    have hka : keyValD a = m * 100 + d := by simp [keyValD, keyOf, ha, hp]
    rw [hka, hkb]
    unfold maxDateKey
    omega

/-- C7: the `update` handler's sort returns (without error, given every
nonempty date parses) the stable ascending reordering of `pending` by due
date: the result is a permutation, it is sorted by the date key, every
equal-key class keeps its relative order, and a parseable date always sorts
strictly before an absent one.  The claim's concrete instance
`[3/2, none, 1/5, none] => [1/5, 3/2, none, none]` is checked in the
witness below. -/
theorem c7_update_sorts_pending (l : List Task) (h : allKeysOk l = true) :
    updateRun l = Except.ok (List.insertionSort keyLe l) ∧
    List.Perm (List.insertionSort keyLe l) l ∧
    List.Sorted keyLe (List.insertionSort keyLe l) ∧
    (∀ k, (List.insertionSort keyLe l).filter (fun x => decide (keyValD x = k)) =
      l.filter (fun x => decide (keyValD x = k))) ∧
    (∀ a b : Task, a.date ≠ "" → (keyOf a).isSome = true → b.date = "" →
      keyValD a < keyValD b) :=
  ⟨by simp [updateRun, h], List.perm_insertionSort keyLe l,
   List.sorted_insertionSort keyLe l, fun k => filter_key_insertionSort k l,
   keyValD_lt_of_dated⟩

/-- Witness for C7 at the claim's concrete input: pending dates
`[3/2, none, 1/5, none]` sort to `[1/5, 3/2, none, none]`. -/
theorem c7_update_sorts_pending_witness :
    allKeysOk [⟨some 1, "b1", "3/2", ""⟩, ⟨some 2, "n1", "", ""⟩,
      ⟨some 3, "a1", "1/5", ""⟩, ⟨some 4, "n2", "", ""⟩] = true ∧
    updateRun [⟨some 1, "b1", "3/2", ""⟩, ⟨some 2, "n1", "", ""⟩,
      ⟨some 3, "a1", "1/5", ""⟩, ⟨some 4, "n2", "", ""⟩] =
      Except.ok [⟨some 3, "a1", "1/5", ""⟩, ⟨some 1, "b1", "3/2", ""⟩,
        ⟨some 2, "n1", "", ""⟩, ⟨some 4, "n2", "", ""⟩] := by
  refine ⟨by decide, ?_⟩
  rw [(c7_update_sorts_pending [⟨some 1, "b1", "3/2", ""⟩, ⟨some 2, "n1", "", ""⟩,
    ⟨some 3, "a1", "1/5", ""⟩, ⟨some 4, "n2", "", ""⟩] (by decide)).1]
  exact congrArg Except.ok (by decide)

/-!
## Argument rejection order (C4), positions (C8), the now filter (C9)
-/

/-- C4 (amended): an invalid `--date` value still makes the parser reject
the command with a usage error and exit code 2, and the rejection happens
before the command dispatches and before any file is written — but only
AFTER `load_tasks()` has chmodded and read both task files, because `main`
loads before it parses (todo.py line 98 versus line 122). -/
theorem c4_usage_error_before_dispatch_after_load (d c : String)
    (h : isValidDateShape d = false) :
    mainEvents (some d) c = loadEvents ++ [Ev.usageError] ∧
    mainExitCode (some d) = 2 ∧
    (∀ f, Ev.writeF f ∉ mainEvents (some d) c) ∧
    Ev.dispatch c ∉ mainEvents (some d) c := by
  refine ⟨by simp [mainEvents, h], by simp [mainExitCode, h], ?_, ?_⟩
  · intro f
    simp [mainEvents, loadEvents, h]
  · simp [mainEvents, loadEvents, h]

/-- Witness for C4's amended theorem at the invalid date value `13-5`. -/
theorem c4_usage_error_before_dispatch_after_load_witness :
    isValidDateShape "13-5" = false ∧
    (mainEvents (some "13-5") "add" = loadEvents ++ [Ev.usageError] ∧
     mainExitCode (some "13-5") = 2 ∧
     (∀ f, Ev.writeF f ∉ mainEvents (some "13-5") "add") ∧
     Ev.dispatch "add" ∉ mainEvents (some "13-5") "add") :=
  ⟨by decide, c4_usage_error_before_dispatch_after_load "13-5" "add" (by decide)⟩

/-- Helper for C8: the pending loader numbers tasks from its running
counter when every line is well formed. -/
theorem loadPendingGo_lineNumbers (lines : List String) :
    ∀ n, (∀ l ∈ lines, (parseLine l).isSome = true) →
      (loadPendingGo n lines).map Task.lineNumber =
        (List.range' n lines.length).map some := by
  induction lines with
  | nil => intro n _; rfl
  | cons l ls ih =>
    intro n h
    obtain ⟨g, hg⟩ := Option.isSome_iff_exists.mp (h l (by simp))
    have hr := ih (n + 1) (fun x hx => h x (by simp [hx]))
    simp [loadPendingGo, hg, List.range'_succ, hr]

/-- C8 (amended): the position of a loaded pending task is the 1-based FILE
line number of its source line (todo.py line 36 numbers every line via
`enumerate(file, start=1)`).  When every line of the file is well formed
this yields positions `1..N` in file order; a malformed line shifts later
positions past the claim's well-formed-line rank (see the counterexample). -/
theorem c8_positions_are_file_line_numbers (lines : List String)
    (h : ∀ l ∈ lines, (parseLine l).isSome = true) :
    (loadPendingLines lines).map Task.lineNumber =
      (List.range' 1 lines.length).map some ∧
    (loadPendingLines lines).length = lines.length := by
  have h1 := loadPendingGo_lineNumbers lines 1 h
  refine ⟨h1, ?_⟩
  have h2 := congrArg List.length h1
  simpa using h2

/-- Witness for C8's amended theorem on a two-line all-well-formed file. -/
theorem c8_positions_are_file_line_numbers_witness :
    (∀ l ∈ ["- a \x7b\x7d[]", "- b \x7b1/2\x7d[c]"], (parseLine l).isSome = true) ∧
    ((loadPendingLines ["- a \x7b\x7d[]", "- b \x7b1/2\x7d[c]"]).map Task.lineNumber =
        (List.range' 1 (["- a \x7b\x7d[]", "- b \x7b1/2\x7d[c]"] : List String).length).map some ∧
      (loadPendingLines ["- a \x7b\x7d[]", "- b \x7b1/2\x7d[c]"]).length =
        (["- a \x7b\x7d[]", "- b \x7b1/2\x7d[c]"] : List String).length) :=
  ⟨by decide,
   c8_positions_are_file_line_numbers ["- a \x7b\x7d[]", "- b \x7b1/2\x7d[c]"] (by decide)⟩

/-- C9 (amended): `ls --now` selects exactly the pending tasks whose stored
date string is LITERALLY equal to `strftime("%-m/%d")` — non-padded month,
zero-padded two-digit day.  A task whose date denotes today in any other
textual form (such as `5/1` on May 1) is excluded; only the exact form
`5/01` is selected, as the concrete second conjunct shows. -/
theorem c9_now_filter_is_literal_equality :
    (∀ (m d : Nat) (ts : List Task) (t : Task),
      t ∈ lsNowFilter m d ts ↔ t ∈ ts ∧ t.date = nowString m d) ∧
    lsNowFilter 5 1 [⟨some 1, "a", "5/1", ""⟩, ⟨some 2, "b", "5/01", ""⟩] =
      [⟨some 2, "b", "5/01", ""⟩] := by
  constructor
  · intro m d ts t
    simp [lsNowFilter, List.mem_filter]
  · rfl

/-!
## Round trip of the record codec (C5)
-/

/-- Helper: group 3 recovers a class containing no `]` and no newline. -/
theorem matchG3_complete (cls rest : List Char)
    (h : ∀ x ∈ cls, x ≠ ']' ∧ x ≠ '\n') :
    matchG3 (cls ++ ']' :: rest) = some cls := by
  induction cls with
  | nil => rfl
  | cons c cs ih =>
    have h1 := h c (by simp)
    have h2 := ih (fun x hx => h x (by simp [hx]))
    simp [matchG3, h1.1, h1.2, h2]

/-- Helper: the group-2 probe fails on any character other than `}`. -/
theorem probe2_of_ne_rbrace (c : Char) (cs : List Char) (h : c ≠ rbrace) :
    probe2 c cs = none := by
  simp [probe2, h]

/-- Helper: the group-2 probe at the real `}[` delimiter runs group 3. -/
theorem probe2_at_delim (rest : List Char) :
    probe2 rbrace ('[' :: rest) = (matchG3 rest).map (fun g3 => (([] : List Char), g3)) := by
  simp [probe2]

/-- Helper: one unfolding of `matchG2` on a nonempty list. -/
theorem matchG2_cons (c : Char) (cs : List Char) :
    matchG2 (c :: cs) =
      match probe2 c cs with
      | some p => some p
      | none =>
        if c = '\n' then none
        else (matchG2 cs).map (fun p => (c :: p.1, p.2)) := rfl

/-- Helper: group 2 recovers a date containing no `}` and no newline when
the class also parses back. -/
theorem matchG2_complete (dt cls rest : List Char)
    (hdt : ∀ x ∈ dt, x ≠ rbrace ∧ x ≠ '\n')
    (hc : ∀ x ∈ cls, x ≠ ']' ∧ x ≠ '\n') :
    matchG2 (dt ++ rbrace :: '[' :: (cls ++ ']' :: rest)) = some (dt, cls) := by
  induction dt with
  | nil =>
    simp only [List.nil_append, matchG2_cons, probe2_at_delim,
      matchG3_complete cls rest hc, Option.map_some']
  | cons c cs ih =>
    have h1 := hdt c (by simp)
    have ih' := ih (fun x hx => hdt x (by simp [hx]))
    have hp : probe2 c (cs ++ rbrace :: '[' :: (cls ++ ']' :: rest)) = none :=
      probe2_of_ne_rbrace _ _ h1.1
    simp only [List.cons_append, matchG2_cons, hp, h1.2, if_false, ih',
      Option.map_some']

/-- Helper: the group-1 probe fails on any character other than a space. -/
theorem probe1_of_ne_space (c : Char) (cs : List Char) (h : c ≠ ' ') :
    probe1 c cs = none := by
  simp [probe1, h]

/-- Helper: the group-1 probe fails when the next character is not `{`. -/
theorem probe1_of_head_ne (c e : Char) (cs : List Char) (h : e ≠ lbrace) :
    probe1 c (e :: cs) = none := by
  unfold probe1
  split <;> simp [h]

/-- Helper: the group-1 probe at the real ` {` delimiter runs group 2. -/
theorem probe1_at_delim (rest : List Char) :
    probe1 ' ' (lbrace :: rest) =
      (matchG2 rest).map (fun p => (([] : List Char), p.1, p.2)) := by
  simp [probe1]

/-- Helper: one unfolding of `matchG1` on a nonempty list. -/
theorem matchG1_cons (c : Char) (cs : List Char) :
    matchG1 (c :: cs) =
      match probe1 c cs with
      | some q => some q
      | none =>
        if c = '\n' then none
        else (matchG1 cs).map (fun q => (c :: q.1, q.2.1, q.2.2)) := rfl

/-- Helper: group 1 recovers a description containing no `{` and no
newline (so the opening ` {` delimiter is the first candidate that lets
the rest of the pattern match). -/
theorem matchG1_complete (d dt cls rest : List Char)
    (hd : ∀ x ∈ d, x ≠ lbrace ∧ x ≠ '\n')
    (hdt : ∀ x ∈ dt, x ≠ rbrace ∧ x ≠ '\n')
    (hc : ∀ x ∈ cls, x ≠ ']' ∧ x ≠ '\n') :
    matchG1 (d ++ ' ' :: lbrace :: (dt ++ rbrace :: '[' :: (cls ++ ']' :: rest)))
      = some (d, dt, cls) := by
  induction d with
  | nil =>
    simp only [List.nil_append, matchG1_cons, probe1_at_delim,
      matchG2_complete dt cls rest hdt hc, Option.map_some']
  | cons c cs ih =>
    have h1 := hd c (by simp)
    have ih' := ih (fun x hx => hd x (by simp [hx]))
    have hp : probe1 c (cs ++ ' ' :: lbrace :: (dt ++ rbrace :: '[' :: (cls ++ ']' :: rest)))
        = none := by
      by_cases hsp : c = ' '
      · cases cs with
        | nil => exact probe1_of_head_ne c ' ' _ (by decide)
        | cons e cs' => exact probe1_of_head_ne c e _ ((hd e (by simp)).1)
      · exact probe1_of_ne_space _ _ hsp
    simp only [List.cons_append, matchG1_cons, hp, ih', Option.map_some']
    simp [h1.2]

/-- Helper: a serialized record starts with `-` and ends with `]`, so
Python's `strip()` leaves it unchanged. -/
theorem pyStrip_record (d dt c : List Char) :
    pyStrip (recordChars d dt c) = recordChars d dt c := by
  have h2 : recordChars d dt c =
      ('-' :: ' ' :: (d ++ ' ' :: lbrace :: (dt ++ rbrace :: '[' :: c))) ++ [']'] := by
    simp [recordChars]
  rw [pyStrip, h2]
  rw [List.cons_append, List.cons_append]
  rw [List.dropWhile_cons]
  have hw : Char.isWhitespace '-' = false := by decide
  rw [hw]
  simp only [Bool.false_eq_true, if_false]
  rw [← List.cons_append, ← List.cons_append, List.reverse_append]
  simp only [List.reverse_cons, List.reverse_nil, List.nil_append, List.singleton_append]
  rw [List.dropWhile_cons]
  have hw2 : Char.isWhitespace ']' = false := by decide
  rw [hw2]
  simp only [Bool.false_eq_true, if_false]
  simp [List.reverse_append, List.append_assoc]

/-- C5 (amended): the round trip holds for every task whose description
contains none of `{`, `}`, `[`, `]` (as the claim requires) and no newline,
whose date contains no `}` and no newline, and whose class contains no `]`
and no newline.  The data model's date shape (`\d{1,2}/\d{1,2}` or empty)
and its class shape (no `]`) satisfy these conditions; the original claim
without them is refuted by the counterexample with class `x]y`. -/
theorem c5_parse_format_roundtrip (t : Task)
    (hd : ∀ x ∈ t.task.data, x ≠ lbrace ∧ x ≠ rbrace ∧ x ≠ '[' ∧ x ≠ ']' ∧ x ≠ '\n')
    (hdt : ∀ x ∈ t.date.data, x ≠ rbrace ∧ x ≠ '\n')
    (hc : ∀ x ∈ t.taskClass.data, x ≠ ']' ∧ x ≠ '\n') :
    parseLine (formatLine t) = some (t.task, t.date, t.taskClass) := by
  obtain ⟨ln, ⟨dl⟩, ⟨dtl⟩, ⟨cl⟩⟩ := t
  show matchRecord (pyStrip (recordChars dl dtl cl)) = _
  rw [pyStrip_record]
  show (matchG1 (dl ++ ' ' :: lbrace :: (dtl ++ rbrace :: '[' :: (cl ++ ']' :: [])))).map _
      = _
  rw [matchG1_complete dl dtl cl []
    (fun x hx => ⟨((hd x hx).1 : _), (hd x hx).2.2.2.2⟩)
    hdt hc]
  rfl

/-- Witness for C5's amended round trip at a concrete task. -/
theorem c5_parse_format_roundtrip_witness :
    parseLine (formatLine ⟨none, "write report", "5/1", "work"⟩) =
      some ("write report", "5/1", "work") :=
  c5_parse_format_roundtrip ⟨none, "write report", "5/1", "work"⟩
    (by decide) (by decide) (by decide)

end Todo
